import Mathlib

/-!
Verification development for the `local-rewrite` browser extension.

The Suggestion Orchestration Engine of the extension lives in the content script
(`src/content/content.ts`, with superseded iterations of the same classes in
other files of the repository) and in the background script (class
`OllamaService`).  This file gives a shallow embedding of the pure
computations of those scripts:

* JavaScript string primitives used by the code (`trim`, `split`,
  `substring`, `includes`) are modelled on `List Char`;
* `JSON.parse` is modelled by an executable parser of the JSON grammar,
  returning `none` where `JSON.parse` throws;
* the background response parsers (the strict one of the current
  `background.ts` and the fallback ladder of the superseded iteration), the
  model-configuration resolution, and the user-facing error translation are
  translated function by function;
* the content-script session (panel lifecycle, single-flight guard, apply,
  highlighting, quote stripping) is modelled as explicit state passing.

DOM-only concerns (element positions, event listener plumbing) are outside
the embedding; the state that the claims speak about (selection offsets,
field values, dispatched events, outbound requests) is carried explicitly.
-/

/-- One character of JavaScript whitespace as recognised by
`String.prototype.trim` (restricted to the ASCII whitespace characters,
which are the only ones this development exercises). -/
def jsWsChar (c : Char) : Bool :=
  c = ' ' || c = '\t' || c = '\n' || c = '\r' || c = '\x0b' || c = '\x0c'

/-- JavaScript `String.prototype.trim` on character lists. -/
def jsTrimList (cs : List Char) : List Char :=
  ((cs.dropWhile jsWsChar).reverse.dropWhile jsWsChar).reverse

/-- JavaScript `String.prototype.trim`. -/
def jsTrim (s : String) : String :=
  String.mk (jsTrimList s.data)

/-- JavaScript `String.prototype.split` with a single-character separator,
on character lists: `"a  b".split(" ")` gives three fields, the middle one
empty, and the empty string splits to one empty field. -/
def splitOnChar (sep : Char) : List Char → List (List Char)
  | [] => [[]]
  | c :: t =>
    if c = sep then [] :: splitOnChar sep t
    else
      match splitOnChar sep t with
      | [] => [[c]]
      | g :: gs => (c :: g) :: gs

/-- Character-list prefix test (auxiliary for the `includes` model). -/
def isPrefList : List Char → List Char → Bool
  | p :: ps, c :: cs => p = c && isPrefList ps cs
  | _ :: _, [] => false
  | [], _ => true

/-- Substring occurrence test on character lists (auxiliary for the
`includes` model). -/
def subList (pat : List Char) : List Char → Bool
  | [] => isPrefList pat []
  | c :: t => isPrefList pat (c :: t) || subList pat t

/-- JavaScript `String.prototype.includes`. -/
def jsIncludes (s pat : String) : Bool := subList pat.data s.data

/-- JavaScript `String.prototype.substring`: both indices are clamped to the
string length and swapped when the start exceeds the end. -/
def jsSubstring (s : String) (a b : Nat) : String :=
  let n := s.data.length
  let a2 := min a n
  let b2 := min b n
  String.mk ((s.data.take (max a2 b2)).drop (min a2 b2))

/-- JSON values as produced by JavaScript `JSON.parse`.  Numbers keep their
grammar components (sign, integer digits, fraction digits, exponent sign and
digits); no claim in this development depends on numeric evaluation. -/
inductive Json where
  | null : Json
  | bool (b : Bool) : Json
  | num (neg : Bool) (intPart : List Char) (frac : List Char)
        (expNeg : Bool) (expDigits : List Char) : Json
  | str (s : String) : Json
  | arr (xs : List Json) : Json
  | obj (fields : List (String × Json)) : Json

/-- JSON insignificant whitespace (space, tab, line feed, carriage return). -/
def jsonWs (c : Char) : Bool := c = ' ' || c = '\t' || c = '\n' || c = '\r'

/-- Drop leading JSON whitespace. -/
def skipWs (cs : List Char) : List Char := cs.dropWhile jsonWs

/-- Value of a hexadecimal digit, by code point: digits, then the
lowercase and uppercase letter ranges. -/
def hexVal (c : Char) : Option Nat :=
  let n := c.toNat
  if 48 ≤ n ∧ n ≤ 57 then some (n - 48)
  else if 97 ≤ n ∧ n ≤ 102 then some (n - 87)
  else if 65 ≤ n ∧ n ≤ 70 then some (n - 55)
  else none

/-- Decoding of a single-character JSON string escape: the quote, backslash
and slash escapes denote themselves; the letter escapes denote control
characters. -/
def jsonEscape (e : Char) : Option Char :=
  if e = '"' ∨ e = '\\' ∨ e = '/' then some e
  else if e = 'b' then some '\x08'
  else if e = 'f' then some '\x0c'
  else if e = 'n' then some '\n'
  else if e = 'r' then some '\r'
  else if e = 't' then some '\t'
  else none

/-- Decode the characters following a backslash in a JSON string: a
`u` escape with four hexadecimal digits, or a single-character escape;
returns the decoded character and the remaining input. -/
def decodeEscape : List Char → Option (Char × List Char)
  | 'u' :: h1 :: h2 :: h3 :: h4 :: rest2 =>
    match hexVal h1, hexVal h2, hexVal h3, hexVal h4 with
    | some a, some b, some c2, some d =>
      some (Char.ofNat (((a * 16 + b) * 16 + c2) * 16 + d), rest2)
    | _, _, _, _ => none
  | e :: rest2 =>
    match jsonEscape e with
    | some c2 => some (c2, rest2)
    | none => none
  | [] => none

/-- Parse the body of a JSON string literal, the opening quote already
consumed; returns the decoded characters and the input after the closing
quote.  Unescaped control characters and invalid escapes are rejected, as
by `JSON.parse`.  The fuel only bounds the recursion depth (every step
consumes at least one character, so `parseStrBody` supplies enough). -/
def parseStrBodyF : Nat → List Char → Option (List Char × List Char)
  | 0, _ => none
  | _ + 1, [] => none
  | fuel + 1, c :: rest =>
    if c = '"' then some ([], rest)
    else if c = '\\' then
      match decodeEscape rest with
      | some (c2, rest2) =>
        match parseStrBodyF fuel rest2 with
        | some (cs, r) => some (c2 :: cs, r)
        | none => none
      | none => none
    else if c.toNat < 32 then none
    else
      match parseStrBodyF fuel rest with
      | some (cs, r) => some (c :: cs, r)
      | none => none

/-- The JSON string-literal body parser with sufficient fuel. -/
def parseStrBody (cs : List Char) : Option (List Char × List Char) :=
  parseStrBodyF (cs.length + 1) cs

/-- Decimal digit test. -/
def isDigit (c : Char) : Bool := '0' ≤ c && c ≤ '9'

/-- Parse the optional fraction part of a JSON number. -/
def parseFrac (cs : List Char) : Option (List Char × List Char) :=
  match cs with
  | '.' :: t =>
    let f := t.takeWhile isDigit
    if f = [] then none else some (f, t.drop f.length)
  | _ => some ([], cs)

/-- Parse the sign and digits of a JSON number exponent. -/
def parseExpTail (cs : List Char) : Option (Bool × List Char × List Char) :=
  let p :=
    match cs with
    | '+' :: t => (false, t)
    | '-' :: t => (true, t)
    | _ => (false, cs)
  let d := p.2.takeWhile isDigit
  if d = [] then none else some (p.1, d, p.2.drop d.length)

/-- Parse the optional exponent part of a JSON number. -/
def parseExp (cs : List Char) : Option (Bool × List Char × List Char) :=
  match cs with
  | 'e' :: t => parseExpTail t
  | 'E' :: t => parseExpTail t
  | _ => some (false, [], cs)

/-- Parse a JSON number (optional minus, integer part without leading
zeros, optional fraction, optional exponent). -/
def parseNumber (cs : List Char) : Option (Json × List Char) :=
  let p :=
    match cs with
    | '-' :: t => (true, t)
    | _ => (false, cs)
  let ip := p.2.takeWhile isDigit
  if ip = [] then none
  else if ip.length > 1 && ip.headI = '0' then none
  else
    match parseFrac (p.2.drop ip.length) with
    | none => none
    | some (frac, cs3) =>
      match parseExp cs3 with
      | none => none
      | some (en, ed, cs4) => some (.num p.1 ip frac en ed, cs4)

mutual

/-- The JSON value grammar as consumed by `JSON.parse`.  The fuel only
bounds the recursion depth and is immaterial to the result whenever it is
large enough; `jsonParse` supplies fuel exceeding any possible nesting. -/
def parseJsonValue : Nat → List Char → Option (Json × List Char)
  | 0, _ => none
  | _ + 1, [] => none
  | fuel + 1, c :: rest =>
    if c = '\x7b' then
      match skipWs rest with
      | '\x7d' :: r2 => some (.obj [], r2)
      | r => parseJsonMembers fuel r
    else if c = '[' then
      match skipWs rest with
      | ']' :: r2 => some (.arr [], r2)
      | r => parseJsonElems fuel r
    else if c = '"' then
      match parseStrBody rest with
      | some (cs, r) => some (.str (String.mk cs), r)
      | none => none
    else if c = 't' then
      if isPrefList ['r', 'u', 'e'] rest then some (.bool true, rest.drop 3) else none
    else if c = 'f' then
      if isPrefList ['a', 'l', 's', 'e'] rest then some (.bool false, rest.drop 4) else none
    else if c = 'n' then
      if isPrefList ['u', 'l', 'l'] rest then some (.null, rest.drop 3) else none
    else if c = '-' || isDigit c then
      parseNumber (c :: rest)
    else none

/-- Members of a JSON object after the opening brace (non-empty case): a
quoted key, a colon, a value, then either a comma and further members or the
closing brace. -/
def parseJsonMembers : Nat → List Char → Option (Json × List Char)
  | 0, _ => none
  | fuel + 1, cs =>
    match cs with
    | '"' :: r =>
      match parseStrBody r with
      | none => none
      | some (key, r1) =>
        match skipWs r1 with
        | ':' :: r2 =>
          match parseJsonValue fuel (skipWs r2) with
          | none => none
          | some (v, r3) =>
            match skipWs r3 with
            | ',' :: r4 =>
              match parseJsonMembers fuel (skipWs r4) with
              | some (.obj fs, r5) => some (.obj ((String.mk key, v) :: fs), r5)
              | _ => none
            | '\x7d' :: r4 => some (.obj [(String.mk key, v)], r4)
            | _ => none
        | _ => none
    | _ => none

/-- Elements of a JSON array after the opening bracket (non-empty case). -/
def parseJsonElems : Nat → List Char → Option (Json × List Char)
  | 0, _ => none
  | fuel + 1, cs =>
    match parseJsonValue fuel cs with
    | none => none
    | some (v, r) =>
      match skipWs r with
      | ',' :: r2 =>
        match parseJsonElems fuel (skipWs r2) with
        | some (.arr vs, r3) => some (.arr (v :: vs), r3)
        | _ => none
      | ']' :: r2 => some (.arr [v], r2)
      | _ => none

end

/-- JavaScript `JSON.parse`; `none` models a thrown `SyntaxError`.  The fuel
`s.data.length + 9` always suffices because nesting depth is bounded by the
input length. -/
def jsonParse (s : String) : Option Json :=
  match parseJsonValue (s.data.length + 9) (skipWs s.data) with
  | some (v, rest) => if skipWs rest = [] then some v else none
  | none => none

/-- Property access on a parsed JSON value (duplicate keys resolve to the
last occurrence, as in JavaScript); `none` models `undefined`. -/
def jsonField (v : Json) (key : String) : Option Json :=
  match v with
  | .obj fields => (fields.reverse.find? (fun kv => kv.1 == key)).map (·.2)
  | _ => none

/-- JavaScript truthiness of a JSON value (`null`, `false`, zero and the
empty string are falsy; objects and arrays are truthy). -/
def jsTruthy : Json → Bool
  | .null => false
  | .bool b => b
  | .str s => s != ""
  | .num _ ip frac _ _ => !(ip.all (· = '0') && frac.all (· = '0'))
  | .arr _ => true
  | .obj _ => true

/-- The two kinds of JavaScript exception the current background parser can
raise: a `SyntaxError` from `JSON.parse`, or a `TypeError` from calling
`trim` on a non-string field. -/
inductive JsError where
  | syntaxError : JsError
  | typeError : JsError
  deriving DecidableEq

/-- Outcome record of the current background parser
(`OllamaService.parseOllamaResponse` of `src/unnamed/part_009`):
`improved_text`, `purpose` and `error` are trimmed strings or `undefined`
(`none`); `isSuccess` is the raw JSON field value. -/
structure ParsedResponse where
  improved_text : Option String
  purpose : Option String
  isSuccess : Option Json
  error : Option String

/-- A field read `parsed.f?.trim()`: `undefined` and `null` give
`undefined`; a string is trimmed; any other value makes `trim` throw a
`TypeError`. -/
def optTrimField (v : Json) (key : String) : Except JsError (Option String) :=
  match jsonField v key with
  | none => .ok none
  | some .null => .ok none
  | some (.str s) => .ok (some (jsTrim s))
  | some _ => .error .typeError

/-- Function `OllamaService.parseOllamaResponse` of the current background script
(`src/unnamed/part_009` lines 453-461): a strict `JSON.parse` of the whole
response text, then optional-chained trims of the fields.  There is no
fallback: a response that is not valid JSON raises a `SyntaxError`. -/
def parseOllamaResponse (responseText : String) : Except JsError ParsedResponse :=
  match jsonParse responseText with
  | none => .error .syntaxError
  | some parsed => do
    let it ← optTrimField parsed "improved_text"
    let pt ← optTrimField parsed "purpose"
    let er ← optTrimField parsed "error"
    .ok ⟨it, pt, jsonField parsed "isSuccess", er⟩

/-- Fixed sentence for connection failures. -/
def connectionMessage : String :=
  "Unable to connect to Ollama. Please make sure Ollama is running on your computer."

/-- Fixed sentence for timeouts. -/
def timeoutMessage : String :=
  "The request took too long to complete. Please try again or check if Ollama is running properly."

/-- Fixed sentence for a missing model (HTTP 404). -/
def modelNotFoundMessage : String :=
  "The AI model was not found. Please check if the model is installed in Ollama."

/-- Fixed sentence for a server error (HTTP 500). -/
def serverErrorMessage : String :=
  "Ollama encountered an internal error. Please try again in a moment."

/-- Fixed sentence for a malformed model response. -/
def malformedResponseMessage : String :=
  "The AI response was not in the expected format. Please try again."

/-- Fixed sentence for an unavailable model. -/
def modelNotAvailableMessage : String :=
  "The selected AI model is not available. Please check your model configuration."

/-- Fixed sentence for a refused connection. -/
def cannotConnectMessage : String :=
  "Cannot connect to Ollama. Please make sure Ollama is installed and running."

/-- Fixed fallback sentence for unknown errors. -/
def unknownErrorMessage : String :=
  "Something went wrong while improving your text. Please make sure Ollama is running and try again."

/-- The eight fixed sentences `getUserFriendlyErrorMessage` can produce,
covering the six error categories (connection twice, model-not-found
twice). -/
def fixedErrorSentences : List String :=
  [connectionMessage, timeoutMessage, modelNotFoundMessage, serverErrorMessage,
   malformedResponseMessage, modelNotAvailableMessage, cannotConnectMessage,
   unknownErrorMessage]

/-- Function `OllamaService.getUserFriendlyErrorMessage` (`src/unnamed/part_009`
lines 576-610): pattern-match the error text and return one of the fixed
user-readable sentences. -/
def getUserFriendlyErrorMessage (errorString : String) : String :=
  if jsIncludes errorString "Failed to fetch" || jsIncludes errorString "NetworkError" then
    connectionMessage
  else if jsIncludes errorString "timeout" || jsIncludes errorString "Timeout" then
    timeoutMessage
  else if jsIncludes errorString "404" || jsIncludes errorString "Not Found" then
    modelNotFoundMessage
  else if jsIncludes errorString "500" || jsIncludes errorString "Internal Server Error" then
    serverErrorMessage
  else if jsIncludes errorString "JSON" || jsIncludes errorString "parse" then
    malformedResponseMessage
  else if jsIncludes errorString "model" && jsIncludes errorString "not found" then
    modelNotAvailableMessage
  else if jsIncludes errorString "connection" || jsIncludes errorString "ECONNREFUSED" then
    cannotConnectMessage
  else
    unknownErrorMessage

/-- Representative engine text of the exceptions the current parser can
raise: a `SyntaxError` from `JSON.parse` always mentions `JSON`, and the
`TypeError` from `parsed.improved_text?.trim` names the receiver
`parsed.`..., so both land in the malformed-response category. -/
def jsErrorMessage : JsError → String
  | .syntaxError => "Unexpected token in JSON at position 0"
  | .typeError => "parsed.improved_text?.trim is not a function"

/-- Result record of `OllamaService.improveText` as sent back to the
content script. -/
structure ImproveOut where
  result : Option String
  purpose : Option String
  isSuccess : Option Json
  error : Option String

/-- The response-processing tail of `OllamaService.improveText`
(`src/unnamed/part_009` lines 195-214), given the `response` text of a
transport-successful `/api/generate` call: trim it, parse it, and either
return the parsed fields or catch the exception and rethrow it as the
user-friendly sentence. -/
def improveTextFromResponse (response : String) : Except String ImproveOut :=
  match parseOllamaResponse (jsTrim response) with
  | .ok p => .ok ⟨p.improved_text, p.purpose, p.isSuccess, p.error⟩
  | .error e => .error (getUserFriendlyErrorMessage (jsErrorMessage e))

/-- Result record of `OllamaService.replaceTextWithFormating`
(rich-text path). -/
structure RichTextOut where
  result : String
  purpose : String
  isSuccess : Bool
  error : String
  deriving DecidableEq

/-- The catch block of `OllamaService.replaceTextWithFormating`
(`src/unnamed/part_009` lines 329-333): the raw exception message is
returned as the `error` field, without the user-friendly translation. -/
def replaceTextWithFormatingCatch (rawMessage : String) : RichTextOut :=
  ⟨"", "", false, rawMessage⟩

/-- Result of the superseded fallback parser of `src/unnamed/part_008`. -/
structure V8Parsed where
  improved_text : String
  purpose : String
  deriving DecidableEq

/-- The regex match of the superseded parser over the response (first
opening brace, then any characters, then a closing brace, with a greedy
middle): the match spans from the first opening brace of the text to the
last closing brace; `none` when no such pair exists. -/
def braceMatch (cs : List Char) : Option (List Char) :=
  match cs.dropWhile (· ≠ '\x7b') with
  | [] => none
  | b :: t =>
    let r := (t.reverse.dropWhile (· ≠ '\x7d')).reverse
    if r = [] then none else some (b :: r)

/-- Quote character class of the extraction regexes (double or single). -/
def isQuoteChar (c : Char) : Bool := c = '"' || c = '\''

/-- The first match group of the quoted-substring regex (a quote of either
kind, one or more non-quote characters, then a quote of either kind),
scanning left to right as the JavaScript engine does. -/
def quotedExtract : List Char → Option (List Char)
  | [] => none
  | c :: rest =>
    if isQuoteChar c then
      let content := rest.takeWhile (fun x => !isQuoteChar x)
      if content ≠ [] && rest.drop content.length ≠ [] then some content
      else quotedExtract rest
    else quotedExtract rest

/-- One line of the superseded fallback scan (`src/unnamed/part_008` lines
188-206): a line mentioning `improved_text`-like keys overwrites the
improved text with its first quoted substring, and a line mentioning
purpose-like words overwrites the purpose; both tests run on every line. -/
def lineScanStep (acc : String × String) (line : String) : String × String :=
  let it :=
    if jsIncludes line "improved_text" || jsIncludes line "improved text" ||
        jsIncludes line "Improved text" then
      match quotedExtract line.data with
      | some m => String.mk m
      | none => acc.1
    else acc.1
  let pt :=
    if jsIncludes line "purpose" || jsIncludes line "changes" ||
        jsIncludes line "improvements" then
      match quotedExtract line.data with
      | some m => String.mk m
      | none => acc.2
    else acc.2
  (it, pt)

/-- The fallback line scan of the superseded parser (`src/unnamed/part_008`
lines 181-216): split into trimmed non-empty lines, scan them for key-like
patterns, then default the improved text to the first non-empty line, and
finally to the raw response. -/
def lineScanFallback (responseText : String) : V8Parsed :=
  let lines := ((splitOnChar '\n' responseText.data).map
      (fun l => String.mk (jsTrimList l))).filter (fun l => l != "")
  let scanned := lines.foldl lineScanStep ("", "Text improvements made")
  let it :=
    if scanned.1 = "" then
      match lines with
      | [] => scanned.1
      | l :: _ => l
    else scanned.1
  ⟨if it = "" then responseText else it, scanned.2⟩

/-- Function `OllamaService.parseOllamaResponse` of the superseded background script
(`src/unnamed/part_008` lines 165-227): greedy brace extraction and
`JSON.parse` of the extract; when both key fields are present and truthy,
their trimmed values are returned; a thrown parse (or trim) error is caught
and yields the raw response with the default purpose; otherwise the
line-scan fallback runs. -/
def parseOllamaResponseV8 (responseText : String) : V8Parsed :=
  match braceMatch responseText.data with
  | some jcs =>
    match jsonParse (String.mk jcs) with
    | none => ⟨responseText, "Text improvements made"⟩
    | some parsed =>
      match jsonField parsed "improved_text", jsonField parsed "purpose" with
      | some a, some b =>
        if jsTruthy a && jsTruthy b then
          match a, b with
          | .str sa, .str sb => ⟨jsTrim sa, jsTrim sb⟩
          | _, _ => ⟨responseText, "Text improvements made"⟩
        else lineScanFallback responseText
      | _, _ => lineScanFallback responseText
  | none => lineScanFallback responseText

/-- A model configuration (name, temperature, nucleus-sampling parameter);
the numeric parameters are exact rationals here. -/
structure ModelConfig where
  name : String
  temperature : ℚ
  top_p : ℚ
  deriving DecidableEq

/-- A fast/quality pair of model configurations. -/
structure ModelPair where
  fast : ModelConfig
  quality : ModelConfig
  deriving DecidableEq

/-- The model-related part of the persisted `UserSettings` record (the UI
preference fields are not consumed by any embedded function). -/
structure UserSettings where
  fastModel : ModelConfig
  qualityModel : ModelConfig
  deriving DecidableEq

/-- Function `OllamaService.getDefaultModelConfig` (`src/unnamed/part_009` lines
510-515): the hardcoded default pair. -/
def getDefaultModelConfig : ModelPair :=
  ⟨⟨"llama3.2:3b", 3/10, 9/10⟩, ⟨"qwen2.5:7b-instruct", 4/10, 95/100⟩⟩

/-- Function `OllamaService.getDynamicModelConfig` (`src/unnamed/part_009` lines
522-553), with the already-loaded settings and the model list from the
tags endpoint as inputs (the storage and fetch error paths inside the
helpers resolve to defaults and the empty list respectively). -/
def getDynamicModelConfig (settings : UserSettings) (availableModels : List String) : ModelPair :=
  if availableModels.length = 0 then getDefaultModelConfig
  else if availableModels.length = 1 then
    ⟨⟨availableModels.headI, 3/10, 9/10⟩, ⟨availableModels.headI, 4/10, 95/100⟩⟩
  else ⟨settings.fastModel, settings.qualityModel⟩

/-- Function `OllamaService.getModelConfig` (`src/unnamed/part_009` lines 467-490):
re-validate the configured models against the currently available list and
fall back to the dynamic configuration when either is missing. -/
def getModelConfig (settings : UserSettings) (availableModels : List String) : ModelPair :=
  let fastModelExists := availableModels.contains settings.fastModel.name
  let qualityModelExists := availableModels.contains settings.qualityModel.name
  if fastModelExists && qualityModelExists then ⟨settings.fastModel, settings.qualityModel⟩
  else getDynamicModelConfig settings availableModels

/-- The length classification computed by the content script when issuing a
request (`src/content/content.ts` line 727): a text is short when splitting
it on single spaces yields at most `shortTextThreshold = 20` fields. -/
def isShortText (text : String) : Bool :=
  (splitOnChar ' ' text.data).length ≤ 20

/-- The model selection of `OllamaService.improveText`
(`src/unnamed/part_009` line 156): the fast configuration for short text,
the quality configuration otherwise. -/
def selectedModelConfig (models : ModelPair) (isShort : Bool) : ModelConfig :=
  if isShort then models.fast else models.quality

/-- The model identifier placed in the outbound generate request for a
given settings record, available-model list and text: the configuration is
re-resolved from the live model list on every call. -/
def requestModelName (settings : UserSettings) (availableModels : List String)
    (text : String) : String :=
  (selectedModelConfig (getModelConfig settings availableModels) (isShortText text)).name

/-- The leading-quote alternative of the quote-stripping regex of
`showSuggestion`: remove one leading quote character when present. -/
def stripLeadQuote : List Char → List Char
  | [] => []
  | c :: t => if isQuoteChar c then t else c :: t

/-- The trailing-quote alternative of the quote-stripping regex of
`showSuggestion`: remove one trailing quote character when present. -/
def stripTrailQuote (cs : List Char) : List Char :=
  match cs.reverse with
  | [] => cs
  | c :: t => if isQuoteChar c then t.reverse else cs

/-- The quote-stripping regex replace of `showSuggestion`
(`src/content/content.ts` line 779) on character lists: the global regex
removes one leading quote (double or single) and one trailing quote of what
remains. -/
def cleanSuggestionList (cs : List Char) : List Char :=
  stripTrailQuote (stripLeadQuote cs)

/-- The cleaned suggestion computed by `showSuggestion` before highlighting
and display (`src/content/content.ts` lines 763-788). -/
def cleanSuggestion (s : String) : String := String.mk (cleanSuggestionList s.data)

/-- A token of the rendered suggestion: a word emitted unmarked, or a word
wrapped in the highlight marker span. -/
inductive HighlightTok where
  | plain (w : List Char) : HighlightTok
  | marked (w : List Char) : HighlightTok
  deriving DecidableEq

/-- Marked-token test. -/
def HighlightTok.isMarked : HighlightTok → Bool
  | .plain _ => false
  | .marked _ => true

/-- Lower-casing used by the word comparison of `highlightChanges`. -/
def lowerList (w : List Char) : List Char := w.map Char.toLower

/-- The cursor walk of `highlightChanges` (`src/content/content.ts` lines
801-821): while the lower-cased words at the two cursors agree, emit the
improved word unmarked and advance both cursors; on a mismatch, emit the
improved word marked and advance only the improved cursor; once the
original words run out, all remaining improved words are emitted marked;
once the improved words run out, the walk stops. -/
def highlightWalk : List (List Char) → List (List Char) → List HighlightTok
  | _, [] => []
  | [], im :: ims => .marked im :: highlightWalk [] ims
  | o :: os, im :: ims =>
    if lowerList o = lowerList im then .plain im :: highlightWalk os ims
    else .marked im :: highlightWalk (o :: os) ims

/-- The HTML fragment appended for one token (the `highlighted +=`
statements of the source): the word plus a trailing space, wrapped in the
highlight span when marked. -/
def renderHighlightTok : HighlightTok → List Char
  | .plain w => w ++ [' ']
  | .marked w => "<span class=\"lre__highlight-change\">".data ++ w ++ "</span> ".data

/-- Function `ImprovementPanelManager.highlightChanges` (`src/content/content.ts`
lines 796-824): split both texts on single spaces, walk them in lock-step,
concatenate the fragments, and trim the result. -/
def highlightChanges (original improved : String) : String :=
  jsTrim (String.mk (((highlightWalk (splitOnChar ' ' original.data)
    (splitOnChar ' ' improved.data)).map renderHighlightTok).flatten))

/-- The DOM notifications dispatched on the field by a plain-field apply. -/
inductive DomEvent where
  | input : DomEvent
  | change : DomEvent
  deriving DecidableEq

/-- The state of a plain editable field (`input`/`textarea`): its value and
its selection offsets. -/
structure PlainField where
  value : String
  selStart : Nat
  selEnd : Nat
  deriving DecidableEq

/-- Function `PingIconManager.getInputSelection` (`src/content/content.ts` lines
430-434): the substring of the value between the selection offsets. -/
def getInputSelection (f : PlainField) : String :=
  jsSubstring f.value f.selStart f.selEnd

/-- The minimum selection length (`minSelectionLength`,
`src/content/content.ts` line 81). -/
def minSelectionLength : Nat := 3

/-- Function `PingIconManager.handlePingClick` (`src/content/content.ts` lines
452-466): read the current selection and dispatch the improvement-request
event (carrying the selected text) only when the selection length reaches
the minimum; the length test is on the untrimmed selection. -/
def handlePingClick (f : PlainField) : Option String :=
  let selectedText := getInputSelection f
  if selectedText.length < minSelectionLength then none
  else some selectedText

/-- Function `PingIconManager.handleEditorPingIconClick` for a rich-text editor
(`src/content/content.ts` lines 396-420, and the superseded iteration at
`src/unnamed/part_006` lines 502-526): the live selection inside the
editor, or the last observed selection text when the live one is empty; the
editor improvement-request event is dispatched when the untrimmed length
reaches the minimum. -/
def handleEditorPingIconClick (liveSelection lastSelectionText : String) : Option String :=
  let selectedText := if liveSelection = "" then lastSelectionText else liveSelection
  if selectedText.length < minSelectionLength then none
  else some selectedText

/-- The plain-field branch of `ImprovementPanelManager.replaceSelection`
(`src/content/content.ts` lines 906-935): with a non-empty suggestion text,
splice it between the value prefix before the selection start and the value
suffix after the selection end, place the cursor right after the spliced
text, and dispatch `input` then `change`; with an empty suggestion text the
guard `text && this.currentInputElement` fails and nothing happens. -/
def replaceSelection (f : PlainField) (text : String) : PlainField × List DomEvent :=
  if text = "" then (f, [])
  else
    let newValue :=
      String.mk (f.value.data.take f.selStart ++ text.data ++ f.value.data.drop f.selEnd)
    let pos := f.selStart + text.length
    (⟨newValue, pos, pos⟩, [.input, .change])

/-- The session state of `ImprovementPanelManager` as the single-flight
claims observe it: the in-flight flag, whether a panel exists, the stored
request text, and the texts of the outbound improvement messages sent so
far. -/
structure SessionState where
  isProcessing : Bool
  panelLive : Bool
  currentInputText : String
  outbound : List String
  deriving DecidableEq

/-- Function `hidePanel` of the current content script (`src/content/content.ts`
lines 622-627): the panel is dropped; the in-flight flag is not touched. -/
def hidePanel (s : SessionState) : SessionState :=
  { s with panelLive := false }

/-- Function `hidePanel` of the superseded iteration (`src/unnamed/part_006` lines
773-780): drops the panel and additionally clears the in-flight flag. -/
def hidePanelP6 (s : SessionState) : SessionState :=
  { s with panelLive := false, isProcessing := false }

/-- Function `showPanel` (`src/content/content.ts` lines 593-617): hide any existing
panel, then create and show a fresh one. -/
def showPanel (s : SessionState) : SessionState :=
  { hidePanel s with panelLive := true }

/-- Function `showPanel` of the superseded iteration (`src/unnamed/part_006` lines
705-767), which starts with the hidePanel of that iteration. -/
def showPanelP6 (s : SessionState) : SessionState :=
  { hidePanelP6 s with panelLive := true }

/-- The synchronous prefix of `improveText` up to and including the
outbound message (`src/content/content.ts` lines 714-728, identical in
`src/unnamed/part_006` lines 852-867): bail out when a request is already
in flight or no panel exists; otherwise set the in-flight flag and send the
message. -/
def improveTextSend (s : SessionState) (text : String) : SessionState :=
  if s.isProcessing || !s.panelLive then s
  else { s with isProcessing := true, outbound := s.outbound ++ [text] }

/-- Function `handleTextImprovementRequest` of the current content script
(`src/content/content.ts` lines 543-549): store the event payload, show the
panel, then start the request. -/
def handleTextImprovementRequest (s : SessionState) (text : String) : SessionState :=
  improveTextSend (showPanel { s with currentInputText := text }) text

/-- The same handler in the superseded iteration (`src/unnamed/part_006`),
which goes through the showPanel of that iteration and hence its
`hidePanel`. -/
def handleTextImprovementRequestP6 (s : SessionState) (text : String) : SessionState :=
  improveTextSend (showPanelP6 { s with currentInputText := text }) text

/-- Resolution of an in-flight request: the `finally` block clears the
in-flight flag (`src/content/content.ts` lines 738-740); rendering the
suggestion or the error does not change the session fields modelled
here. -/
def resolveRequest (s : SessionState) : SessionState :=
  { s with isProcessing := false }

/-- The Retry button handler (`src/content/content.ts` line 688): calls
`improveText` again with the stored request text. -/
def retryRequest (s : SessionState) : SessionState :=
  improveTextSend s s.currentInputText

/-- The initial session state: no panel, nothing in flight, nothing sent. -/
def initialSession : SessionState := ⟨false, false, "", []⟩

/-- The exact model response of the round-trip claim: the JSON object with
`improved_text` X, `purpose` Y and `isSuccess` true, with X and Y spliced
in verbatim. -/
def roundTripResponse (X Y : String) : String :=
  "\x7b\"improved_text\":\"" ++ X ++ "\",\"purpose\":\"" ++ Y ++ "\",\"isSuccess\":true\x7d"

/-- Characters representable in a JSON string literal without escaping: not
a double quote, not a backslash, not a control character.  A string of such
characters spliced between quotes round-trips through `JSON.parse`
unchanged. -/
def isJsonSafeChar (c : Char) : Bool :=
  c ≠ '"' && (c ≠ '\\' && decide (32 ≤ c.toNat))

theorem highlightWalk_self (ws : List (List Char)) :
    highlightWalk ws ws = ws.map HighlightTok.plain := by
  induction ws with
  | nil => rfl
  | cons w t ih => simp [highlightWalk, ih]

/-- Claim C2 (amended): in the current content script, while a request is in
flight a further improvement-requested event sends no further outbound
message and leaves the in-flight flag set (though the panel is recreated and
the stored text updated, so the event is not a strict no-op), and two
activation events from the initial state before the first request resolves
produce exactly one outbound request; in the superseded
`src/unnamed/part_006` iteration, whose `hidePanel` clears the in-flight
flag, the second activation sends a second request. -/
theorem c2_single_flight (s : SessionState) (t u : String) (h : s.isProcessing = true) :
    ((handleTextImprovementRequest s t).outbound = s.outbound ∧
      (handleTextImprovementRequest s t).isProcessing = true) ∧
    (handleTextImprovementRequest (handleTextImprovementRequest initialSession u) t).outbound
      = [u] := by
  refine ⟨⟨?_, ?_⟩, ?_⟩
  · simp [handleTextImprovementRequest, improveTextSend, showPanel, hidePanel, h]
  · simp [handleTextImprovementRequest, improveTextSend, showPanel, hidePanel, h]
  · simp [handleTextImprovementRequest, improveTextSend, showPanel, hidePanel, initialSession]

theorem c2_single_flight_witness :
    ((handleTextImprovementRequest ⟨true, true, "x", ["x"]⟩ "y").outbound = ["x"] ∧
      (handleTextImprovementRequest ⟨true, true, "x", ["x"]⟩ "y").isProcessing = true) ∧
    (handleTextImprovementRequest (handleTextImprovementRequest initialSession "z") "y").outbound
      = ["z"] :=
  c2_single_flight ⟨true, true, "x", ["x"]⟩ "y" "z" rfl

/-- Claim C2 counterexample: in the superseded `src/unnamed/part_006`
iteration, two activation events before the first request resolves produce
two outbound requests, not one, because `showPanel` runs before the
single-flight guard and its `hidePanel` clears the in-flight flag. -/
theorem c2_counterexample :
    (handleTextImprovementRequestP6
        (handleTextImprovementRequestP6 initialSession "hello world") "hello world").outbound
      = ["hello world", "hello world"] ∧
    (handleTextImprovementRequestP6
        (handleTextImprovementRequestP6 initialSession "hello world") "hello world").outbound.length
      ≠ 1 :=
  ⟨rfl, by decide⟩

/-- Claim C3 (amended): a selection whose raw (untrimmed) length is below
the 3-character minimum produces no improvement-requested event, for both
plain fields and rich-text editors; the guards test the untrimmed length,
so a selection of 3 or more characters that trims below 3 does emit the
event. -/
theorem c3_short_selection_no_event (f : PlainField) (live last : String)
    (hf : (getInputSelection f).length < minSelectionLength)
    (he : (if live = "" then last else live).length < minSelectionLength) :
    handlePingClick f = none ∧ handleEditorPingIconClick live last = none := by
  constructor
  · simp [handlePingClick, hf]
  · simp only [handleEditorPingIconClick]
    rw [if_pos he]

theorem c3_short_selection_no_event_witness :
    handlePingClick ⟨"ab cd", 0, 2⟩ = none ∧ handleEditorPingIconClick "" "ab" = none :=
  c3_short_selection_no_event ⟨"ab cd", 0, 2⟩ "" "ab" (by decide) (by decide)

/-- Claim C3 counterexample: the selection `"a  "` (one letter and two
spaces) has trimmed length 1, below the minimum, yet clicking the trigger
emits the improvement-requested event, because `handlePingClick` tests the
untrimmed length 3. -/
theorem c3_counterexample :
    (jsTrim (getInputSelection ⟨"a  xyz", 0, 3⟩)).length < minSelectionLength ∧
    handlePingClick ⟨"a  xyz", 0, 3⟩ = some "a  " :=
  ⟨by decide, rfl⟩

/-- Claim C4: the model configuration is re-validated against the available
model list on every call: when both configured models are present they are
used; when either is absent and exactly one model is available, both fast
and quality resolve to that model; when no model is available, the
hardcoded default pair is used. -/
theorem c4_model_config_revalidation (settings : UserSettings) (avail : List String) :
    (avail.contains settings.fastModel.name = true →
      avail.contains settings.qualityModel.name = true →
      getModelConfig settings avail = ⟨settings.fastModel, settings.qualityModel⟩) ∧
    (¬(avail.contains settings.fastModel.name = true ∧
        avail.contains settings.qualityModel.name = true) →
      ∀ m, avail = [m] →
        (getModelConfig settings avail).fast.name = m ∧
        (getModelConfig settings avail).quality.name = m) ∧
    (avail = [] → getModelConfig settings avail = getDefaultModelConfig) := by
  refine ⟨?_, ?_, ?_⟩
  · intro h1 h2
    simp only [getModelConfig, h1, h2]
    rfl
  · intro hn m hm
    subst hm
    have hneq : ¬(settings.fastModel.name = m ∧ settings.qualityModel.name = m) := by
      intro hab
      apply hn
      constructor
      · simp [hab.1]
      · simp [hab.2]
    simp [getModelConfig, getDynamicModelConfig, hneq]
  · intro hm
    subst hm
    simp [getModelConfig, getDynamicModelConfig]

theorem c4_model_config_revalidation_witness :
    (getModelConfig ⟨⟨"m1", 1/2, 1/2⟩, ⟨"m2", 1/2, 1/2⟩⟩ ["m1"]).fast.name = "m1" ∧
    (getModelConfig ⟨⟨"m1", 1/2, 1/2⟩, ⟨"m2", 1/2, 1/2⟩⟩ ["m1"]).quality.name = "m1" :=
  (c4_model_config_revalidation ⟨⟨"m1", 1/2, 1/2⟩, ⟨"m2", 1/2, 1/2⟩⟩ ["m1"]).2.1
    (by decide) "m1" rfl

/-- Claim C6 (amended): every error caught on the plain improvement path is
translated to one of the fixed per-category user-readable sentences, and the
Retry button re-issues the request with the unchanged stored text; the
rich-text path (`replaceTextWithFormating`) instead returns the raw
exception text. -/
theorem c6_fixed_error_sentences (e t : String) :
    getUserFriendlyErrorMessage e ∈ fixedErrorSentences ∧
    (retryRequest (resolveRequest (handleTextImprovementRequest initialSession t))).outbound
      = [t, t] := by
  constructor
  · unfold getUserFriendlyErrorMessage
    split_ifs <;> simp [fixedErrorSentences]
  · simp [retryRequest, resolveRequest, handleTextImprovementRequest, improveTextSend,
      showPanel, hidePanel, initialSession]

/-- Claim C6 counterexample: the rich-text improvement path surfaces the
raw exception text to the caller; its catch block returns the message
verbatim, which is none of the fixed user-readable sentences. -/
theorem c6_counterexample :
    (replaceTextWithFormatingCatch "TypeError: boom at line 7").error
      = "TypeError: boom at line 7" ∧
    "TypeError: boom at line 7" ∉ fixedErrorSentences :=
  ⟨rfl, by decide⟩

/-- Claim C7 (amended): applying a non-empty suggestion to a plain field
with valid selection offsets start ≤ end replaces exactly the selected
range: the new value is the old prefix before start, the suggestion, then
the old suffix after end; the characters outside the selected range are
unchanged; the cursor lands at start plus the suggestion length; and
`input` then `change` are dispatched.  An empty suggestion is required to be
excluded because the guard `text && this.currentInputElement` then skips
the whole apply. -/
theorem c7_apply_splices_selection (f : PlainField) (text : String)
    (ht : text ≠ "") (hse : f.selStart ≤ f.selEnd) (hlen : f.selEnd ≤ f.value.length) :
    (replaceSelection f text).1.value
      = String.mk (f.value.data.take f.selStart ++ text.data ++ f.value.data.drop f.selEnd) ∧
    (replaceSelection f text).1.selStart = f.selStart + text.length ∧
    (replaceSelection f text).1.selEnd = f.selStart + text.length ∧
    (replaceSelection f text).2 = [DomEvent.input, DomEvent.change] ∧
    (replaceSelection f text).1.value.data.take f.selStart = f.value.data.take f.selStart ∧
    (replaceSelection f text).1.value.data.drop (f.selStart + text.length)
      = f.value.data.drop f.selEnd := by
  have hsl : f.selStart ≤ f.value.data.length := le_trans hse hlen
  have hpre : (f.value.data.take f.selStart).length = f.selStart := by
    rw [List.length_take]; omega
  have h5 : (f.value.data.take f.selStart ++ (text.data ++ f.value.data.drop f.selEnd)).take
      f.selStart = f.value.data.take f.selStart := by
    rw [List.take_append_of_le_length (by omega)]
    simp [List.take_take]
  have h6 : (f.value.data.take f.selStart ++ (text.data ++ f.value.data.drop f.selEnd)).drop
      (f.selStart + text.length) = f.value.data.drop f.selEnd := by
    have h2 : (f.value.data.take f.selStart ++ text.data).length
        = f.selStart + text.length := by
      rw [List.length_append, hpre]; rfl
    rw [← List.append_assoc, ← h2, List.drop_left]
  refine ⟨?_, ?_, ?_, ?_, ?_, ?_⟩
  · simp [replaceSelection, ht]
  · simp [replaceSelection, ht]
  · simp [replaceSelection, ht]
  · simp [replaceSelection, ht]
  · simp [replaceSelection, ht, h5]
  · simp [replaceSelection, ht, h6]

theorem c7_apply_splices_selection_witness :
    (replaceSelection ⟨"helo wrld", 0, 9⟩ "Hello world").1.value
      = String.mk ("helo wrld".data.take 0 ++ "Hello world".data ++ "helo wrld".data.drop 9) ∧
    (replaceSelection ⟨"helo wrld", 0, 9⟩ "Hello world").1.selStart = 0 + "Hello world".length ∧
    (replaceSelection ⟨"helo wrld", 0, 9⟩ "Hello world").1.selEnd = 0 + "Hello world".length ∧
    (replaceSelection ⟨"helo wrld", 0, 9⟩ "Hello world").2 = [DomEvent.input, DomEvent.change] ∧
    (replaceSelection ⟨"helo wrld", 0, 9⟩ "Hello world").1.value.data.take 0
      = "helo wrld".data.take 0 ∧
    (replaceSelection ⟨"helo wrld", 0, 9⟩ "Hello world").1.value.data.drop
        (0 + "Hello world".length) = "helo wrld".data.drop 9 :=
  c7_apply_splices_selection ⟨"helo wrld", 0, 9⟩ "Hello world"
    (by decide) (by decide) (by decide)

/-- Claim C7 counterexample: with an empty displayed suggestion the apply is
a silent no-op; the field keeps its old value (which differs from the
claimed prefix-suggestion-suffix splice) and no events are dispatched. -/
theorem c7_counterexample :
    replaceSelection ⟨"abcde", 1, 4⟩ "" = (⟨"abcde", 1, 4⟩, []) ∧
    (⟨"abcde", 1, 4⟩ : PlainField).value
      ≠ String.mk ("abcde".data.take 1 ++ "".data ++ "abcde".data.drop 4) :=
  ⟨rfl, by decide⟩

/-- Claim C8: the length class is short exactly when splitting the text on
single space characters yields at most 20 fields, and a short text routes
to the fast model configuration while any other text routes to the quality
configuration. -/
theorem c8_length_class_routing (text : String) :
    (isShortText text = true ↔ (splitOnChar ' ' text.data).length ≤ 20) ∧
    (∀ models : ModelPair,
      selectedModelConfig models (isShortText text)
        = if (splitOnChar ' ' text.data).length ≤ 20 then models.fast else models.quality) := by
  constructor
  · simp [isShortText]
  · intro models
    by_cases h : (splitOnChar ' ' text.data).length ≤ 20
    · simp [selectedModelConfig, isShortText, h]
    · simp [selectedModelConfig, isShortText, h]

/-- Claim C9: for every non-empty text, highlighting a text against itself
emits every word unmarked: the walk yields exactly the space-split words as
plain tokens and wraps zero words in the highlight marker. -/
theorem c9_highlight_idempotent (T : String) (_hT : T ≠ "") :
    (highlightWalk (splitOnChar ' ' T.data) (splitOnChar ' ' T.data)).countP
        HighlightTok.isMarked = 0 ∧
    highlightWalk (splitOnChar ' ' T.data) (splitOnChar ' ' T.data)
      = (splitOnChar ' ' T.data).map HighlightTok.plain := by
  refine ⟨?_, highlightWalk_self _⟩
  rw [highlightWalk_self]
  simp [List.countP_map, HighlightTok.isMarked, Function.comp]

theorem c9_highlight_idempotent_witness :
    (highlightWalk (splitOnChar ' ' "Hello world".data)
        (splitOnChar ' ' "Hello world".data)).countP HighlightTok.isMarked = 0 ∧
    highlightWalk (splitOnChar ' ' "Hello world".data) (splitOnChar ' ' "Hello world".data)
      = (splitOnChar ' ' "Hello world".data).map HighlightTok.plain :=
  c9_highlight_idempotent "Hello world" (by decide)

theorem stripTrailQuote_length_le (cs : List Char) :
    (stripTrailQuote cs).length ≤ cs.length := by
  unfold stripTrailQuote
  cases hr : cs.reverse with
  | nil => exact le_refl _
  | cons c t =>
    have hl : cs.length = t.length + 1 := by
      have := congrArg List.length hr
      simpa using this
    by_cases hq : isQuoteChar c = true
    · simp [hq, hl]
    · simp [hq]

theorem stripTrailQuote_append_quote {c : Char} (t : List Char) (hq : isQuoteChar c = true) :
    stripTrailQuote (t ++ [c]) = t := by
  unfold stripTrailQuote
  rw [List.reverse_append]
  simp [hq]

/-- Claim C10: before the suggestion is displayed (and hence applied or
copied), exactly one leading and one trailing quote character (double or
single) is stripped from the model-returned improved text: a text starting
with a quote, a text ending with a quote, and a text doing both all display
differently from what the background returned, and in the both-ends case
exactly the first and last characters are removed. -/
theorem c10_quote_stripping (s : String) (c c2 : Char) (mid : List Char)
    (hq : isQuoteChar c = true) :
    (s.data = c :: mid → cleanSuggestion s ≠ s) ∧
    (s.data = mid ++ [c] → cleanSuggestion s ≠ s) ∧
    (s.data = c :: (mid ++ [c2]) → isQuoteChar c2 = true →
      cleanSuggestion s = String.mk mid) := by
  refine ⟨?_, ?_, ?_⟩
  · intro hs heq
    have hdata : cleanSuggestionList s.data = s.data := congrArg String.data heq
    have hlt : (cleanSuggestionList s.data).length < s.data.length := by
      rw [hs]
      simp only [cleanSuggestionList, stripLeadQuote, if_pos hq]
      have := stripTrailQuote_length_le mid
      simp only [List.length_cons]
      omega
    rw [hdata] at hlt
    omega
  · intro hs heq
    have hdata : cleanSuggestionList s.data = s.data := congrArg String.data heq
    have hlt : (cleanSuggestionList s.data).length < s.data.length := by
      rw [hs]
      cases mid with
      | nil =>
        simp [cleanSuggestionList, stripLeadQuote, hq, stripTrailQuote]
      | cons m t =>
        simp only [cleanSuggestionList, stripLeadQuote, List.cons_append]
        by_cases hm : isQuoteChar m = true
        · rw [if_pos hm, stripTrailQuote_append_quote t hq]
          simp
          omega
        · rw [if_neg hm]
          have : stripTrailQuote ((m :: t) ++ [c]) = m :: t :=
            stripTrailQuote_append_quote (m :: t) hq
          rw [List.cons_append] at this
          rw [this]
          simp
    rw [hdata] at hlt
    omega
  · intro hs hq2
    have : cleanSuggestionList s.data = mid := by
      rw [hs]
      simp only [cleanSuggestionList, stripLeadQuote, if_pos hq]
      exact stripTrailQuote_append_quote mid hq2
    unfold cleanSuggestion
    rw [this]

theorem c10_quote_stripping_witness :
    cleanSuggestion "\"Hello\"" = String.mk "Hello".data :=
  (c10_quote_stripping "\"Hello\"" '"' '"' "Hello".data (by decide)).2.2
    (by decide) (by decide)

theorem parseStrBodyF_append_safe (xs : List Char) :
    ∀ (rest : List Char) (k : Nat), xs.all isJsonSafeChar = true →
      parseStrBodyF (xs.length + k + 1) (xs ++ '"' :: rest) = some (xs, rest) := by
  induction xs with
  | nil => intro rest k _; simp [parseStrBodyF]
  | cons c t ih =>
    intro rest k h
    rw [List.all_cons, Bool.and_eq_true] at h
    obtain ⟨hc, ht⟩ := h
    simp only [isJsonSafeChar, Bool.and_eq_true, decide_eq_true_eq] at hc
    obtain ⟨h1, h2, h3⟩ := hc
    rw [List.cons_append, List.length_cons]
    have hfuel : t.length + 1 + k + 1 = (t.length + k + 1) + 1 := by omega
    rw [hfuel]
    simp only [parseStrBodyF]
    rw [if_neg h1, if_neg h2, if_neg (Nat.not_lt.mpr h3), ih rest k ht]

theorem parseStrBody_append_safe (xs rest : List Char) (h : xs.all isJsonSafeChar = true) :
    parseStrBody (xs ++ '"' :: rest) = some (xs, rest) := by
  unfold parseStrBody
  have hl : (xs ++ '"' :: rest).length + 1 = xs.length + (rest.length + 1) + 1 := by
    simp [List.length_append]
  rw [hl]
  exact parseStrBodyF_append_safe xs rest (rest.length + 1) h

theorem skipWs_cons_of {c : Char} (h : jsonWs c = false) (t : List Char) :
    skipWs (c :: t) = c :: t := by
  simp [skipWs, List.dropWhile_cons, h]

theorem parseJsonValue_str (fuel : Nat) (xs rest : List Char)
    (h : xs.all isJsonSafeChar = true) :
    parseJsonValue (fuel + 1) ('"' :: (xs ++ '"' :: rest))
      = some (.str (String.mk xs), rest) := by
  simp [parseJsonValue, parseStrBody_append_safe xs rest h]

theorem parseJsonValue_true (fuel : Nat) (rest : List Char) :
    parseJsonValue (fuel + 1) ('t' :: 'r' :: 'u' :: 'e' :: rest) = some (.bool true, rest) := by
  simp [parseJsonValue, isPrefList]

theorem jsTrimList_sandwich (a b : Char) (mid : List Char)
    (ha : jsWsChar a = false) (hb : jsWsChar b = false) :
    jsTrimList (a :: (mid ++ [b])) = a :: (mid ++ [b]) := by
  unfold jsTrimList
  rw [List.dropWhile_cons_of_neg (by simp [ha])]
  have hrev : (a :: (mid ++ [b])).reverse = b :: (mid.reverse ++ [a]) := by
    simp
  rw [hrev, List.dropWhile_cons_of_neg (by simp [hb]), ← hrev, List.reverse_reverse]

theorem stringMkData (s : String) : String.mk s.data = s := rfl

theorem memberIsSuccess (m : Nat) :
    parseJsonMembers (m + 2)
      ('"' :: ("isSuccess".data ++ '"' :: ':' :: 't' :: 'r' :: 'u' :: 'e' :: '\x7d' :: []))
      = some (.obj [("isSuccess", .bool true)], []) := by
  simp only [parseJsonMembers]
  simp [parseStrBody, parseStrBodyF, skipWs, jsonWs, parseJsonValue_true, stringMkData]

theorem memberPurpose (m : Nat) (ys : List Char) (hY : ys.all isJsonSafeChar = true) :
    parseJsonMembers (m + 3)
      ('"' :: ("purpose".data ++ '"' :: ':' :: '"' ::
        (ys ++ '"' :: ',' :: '"' ::
          ("isSuccess".data ++ '"' :: ':' :: 't' :: 'r' :: 'u' :: 'e' :: '\x7d' :: []))))
      = some (.obj [("purpose", .str (String.mk ys)), ("isSuccess", .bool true)], []) := by
  have hstr := fun fuel rest => parseJsonValue_str fuel ys rest hY
  simp only [parseJsonMembers]
  simp [parseStrBody, parseStrBodyF, hstr, skipWs, jsonWs, parseJsonValue_true, stringMkData]

theorem memberImproved (m : Nat) (xs ys : List Char)
    (hX : xs.all isJsonSafeChar = true) (hY : ys.all isJsonSafeChar = true) :
    parseJsonMembers (m + 4)
      ('"' :: ("improved_text".data ++ '"' :: ':' :: '"' ::
        (xs ++ '"' :: ',' :: '"' ::
          ("purpose".data ++ '"' :: ':' :: '"' ::
            (ys ++ '"' :: ',' :: '"' ::
              ("isSuccess".data ++ '"' :: ':' :: 't' :: 'r' :: 'u' :: 'e' :: '\x7d' :: []))))))
      = some (.obj [("improved_text", .str (String.mk xs)), ("purpose", .str (String.mk ys)),
          ("isSuccess", .bool true)], []) := by
  have hstrX := fun fuel rest => parseJsonValue_str fuel xs rest hX
  have hstrY := fun fuel rest => parseJsonValue_str fuel ys rest hY
  simp only [parseJsonMembers]
  simp [parseStrBody, parseStrBodyF, hstrX, hstrY, skipWs, jsonWs, parseJsonValue_true,
    stringMkData]

theorem roundTripValue (m : Nat) (xs ys : List Char)
    (hX : xs.all isJsonSafeChar = true) (hY : ys.all isJsonSafeChar = true) :
    parseJsonValue (m + 5)
      ('\x7b' :: '"' :: ("improved_text".data ++ '"' :: ':' :: '"' ::
        (xs ++ '"' :: ',' :: '"' ::
          ("purpose".data ++ '"' :: ':' :: '"' ::
            (ys ++ '"' :: ',' :: '"' ::
              ("isSuccess".data ++ '"' :: ':' :: 't' :: 'r' :: 'u' :: 'e' :: '\x7d' :: []))))))
      = some (.obj [("improved_text", .str (String.mk xs)), ("purpose", .str (String.mk ys)),
          ("isSuccess", .bool true)], []) := by
  show parseJsonMembers (m + 4)
      ('"' :: ("improved_text".data ++ '"' :: ':' :: '"' ::
        (xs ++ '"' :: ',' :: '"' ::
          ("purpose".data ++ '"' :: ':' :: '"' ::
            (ys ++ '"' :: ',' :: '"' ::
              ("isSuccess".data ++ '"' :: ':' :: 't' :: 'r' :: 'u' :: 'e' :: '\x7d' :: []))))))
      = _
  exact memberImproved m xs ys hX hY

theorem roundTripShape (X Y : String) :
    (roundTripResponse X Y).data
      = '\x7b' :: '"' :: ("improved_text".data ++ '"' :: ':' :: '"' ::
          (X.data ++ '"' :: ',' :: '"' ::
            ("purpose".data ++ '"' :: ':' :: '"' ::
              (Y.data ++ '"' :: ',' :: '"' ::
                ("isSuccess".data ++ '"' :: ':' :: 't' :: 'r' :: 'u' :: 'e' :: '\x7d' :: []))))) := by
  simp [roundTripResponse, String.data_append]

theorem roundTripParse (X Y : String) (hX : X.data.all isJsonSafeChar = true)
    (hY : Y.data.all isJsonSafeChar = true) :
    jsonParse (roundTripResponse X Y)
      = some (.obj [("improved_text", .str X), ("purpose", .str Y),
          ("isSuccess", .bool true)]) := by
  unfold jsonParse
  rw [roundTripShape X Y]
  rw [show ∀ n : Nat, n + 9 = (n + 4) + 5 from fun n => by omega]
  rw [skipWs_cons_of (by rfl)]
  rw [roundTripValue _ X.data Y.data hX hY]
  simp [skipWs, stringMkData]

theorem roundTripTrim (X Y : String) :
    jsTrim (roundTripResponse X Y) = roundTripResponse X Y := by
  have h2 : (roundTripResponse X Y).data
      = '\x7b' :: (("\"improved_text\":\"".data ++ X.data ++ "\",\"purpose\":\"".data
          ++ Y.data ++ "\",\"isSuccess\":true".data) ++ ['\x7d']) := by
    simp [roundTripResponse, String.data_append]
  unfold jsTrim
  rw [h2, jsTrimList_sandwich _ _ _ (by rfl) (by rfl), ← h2, stringMkData]

/-- Claim C1 counterexample: the current response parser has no fallback
ladder.  A plain-text response that cannot be parsed yields the
malformed-response error, not the raw text as improved text; and even the
superseded fallback parser does not extract the first balanced brace
group: on a response holding a well-formed object followed by a stray
closing brace, its greedy first-to-last-brace extraction fails to parse and
the raw response is returned instead of the embedded fields. -/
theorem c1_counterexample :
    improveTextFromResponse "Here is the improved text."
      = .error malformedResponseMessage ∧
    parseOllamaResponseV8 "\x7b\"improved_text\":\"A\",\"purpose\":\"P\"\x7d x \x7d"
      = ⟨"\x7b\"improved_text\":\"A\",\"purpose\":\"P\"\x7d x \x7d", "Text improvements made"⟩ ∧
    parseOllamaResponseV8 "\x7b\"improved_text\":\"A\",\"purpose\":\"P\"\x7d x \x7d"
      ≠ ⟨"A", "P"⟩ :=
  ⟨rfl, rfl, by decide⟩

/-- Claim C1 (amended): the layered fallback exists only in the superseded
background iteration, and its ladder is: extract the greedy
first-opening-brace-to-last-closing-brace substring and JSON-parse it; when
there is no such substring, line-scan with quoted-substring extraction and
the documented defaults; when the extracted substring fails to parse, the
thrown error is caught and the raw response is returned verbatim with the
default purpose (the line scan is skipped); when it parses with non-empty
string fields, their trimmed values are returned.  The current parser
attempts a strict JSON parse only, and a response that cannot be parsed
yields the malformed-response error rather than the raw text. -/
theorem c1_fallback_ladder (s : String) (j : List Char) (v : Json) (sa sb : String) :
    (braceMatch s.data = none → parseOllamaResponseV8 s = lineScanFallback s) ∧
    (braceMatch s.data = some j → jsonParse (String.mk j) = none →
      parseOllamaResponseV8 s = ⟨s, "Text improvements made"⟩) ∧
    (braceMatch s.data = some j → jsonParse (String.mk j) = some v →
      jsonField v "improved_text" = some (.str sa) → jsonField v "purpose" = some (.str sb) →
      sa ≠ "" → sb ≠ "" → parseOllamaResponseV8 s = ⟨jsTrim sa, jsTrim sb⟩) ∧
    (jsonParse (jsTrim s) = none →
      improveTextFromResponse s = .error malformedResponseMessage) := by
  refine ⟨?_, ?_, ?_, ?_⟩
  · intro h
    unfold parseOllamaResponseV8
    rw [h]
  · intro h1 h2
    unfold parseOllamaResponseV8
    rw [h1]
    simp [h2]
  · intro h1 h2 h3 h4 h5 h6
    unfold parseOllamaResponseV8
    rw [h1]
    simp [h2, h3, h4, jsTruthy, h5, h6]
  · intro h
    unfold improveTextFromResponse parseOllamaResponse
    rw [h]
    rfl

theorem c1_fallback_ladder_witness :
    parseOllamaResponseV8 "no json in sight" = lineScanFallback "no json in sight" ∧
    parseOllamaResponseV8 "\x7b bad \x7d" = ⟨"\x7b bad \x7d", "Text improvements made"⟩ ∧
    parseOllamaResponseV8 "\x7b\"improved_text\":\" A \",\"purpose\":\"P.\"\x7d"
      = ⟨jsTrim " A ", jsTrim "P."⟩ ∧
    improveTextFromResponse "plain answer" = .error malformedResponseMessage := by
  refine ⟨?_, ?_, ?_, ?_⟩
  · exact (c1_fallback_ladder "no json in sight" [] .null "" "").1 (by rfl)
  · exact (c1_fallback_ladder "\x7b bad \x7d" "\x7b bad \x7d".data .null "" "").2.1
      (by rfl) (by rfl)
  · exact (c1_fallback_ladder "\x7b\"improved_text\":\" A \",\"purpose\":\"P.\"\x7d"
      "\x7b\"improved_text\":\" A \",\"purpose\":\"P.\"\x7d".data
      (.obj [("improved_text", .str " A "), ("purpose", .str "P.")]) " A " "P.").2.2.1
      (by rfl) (by rfl) (by rfl) (by rfl) (by decide) (by decide)
  · exact (c1_fallback_ladder "plain answer" [] .null "" "").2.2.2 (by rfl)

/-- Claim C5 (amended): for every X and Y made of JSON-safe characters and
invariant under trimming, a model response that is exactly the JSON object
with improved_text X, purpose Y and isSuccess true makes the improve call
return improved text X, purpose summary Y, success true and no error.
Trim-invariance is required because the parser trims both fields. -/
theorem c5_round_trip (X Y : String) (hX : X.data.all isJsonSafeChar = true)
    (hY : Y.data.all isJsonSafeChar = true) (hXt : jsTrim X = X) (hYt : jsTrim Y = Y) :
    improveTextFromResponse (roundTripResponse X Y)
      = .ok ⟨some X, some Y, some (.bool true), none⟩ := by
  have hred : parseOllamaResponse (roundTripResponse X Y)
      = .ok ⟨some (jsTrim X), some (jsTrim Y), some (.bool true), none⟩ := by
    unfold parseOllamaResponse
    rw [roundTripParse X Y hX hY]
    rfl
  unfold improveTextFromResponse
  rw [roundTripTrim X Y, hred, hXt, hYt]

theorem c5_round_trip_witness :
    improveTextFromResponse (roundTripResponse "Hello world." "Fixed spelling")
      = .ok ⟨some "Hello world.", some "Fixed spelling", some (.bool true), none⟩ :=
  c5_round_trip "Hello world." "Fixed spelling" (by rfl) (by rfl) (by rfl) (by rfl)

/-- Claim C5 counterexample: the claim fails for improved texts with
leading or trailing whitespace, because the parser trims the parsed fields:
the response whose improved_text field is exactly `" hi "` comes back with
improved text `"hi"`. -/
theorem c5_counterexample :
    improveTextFromResponse (roundTripResponse " hi " "Tidy up")
      = .ok ⟨some "hi", some "Tidy up", some (.bool true), none⟩ ∧
    "hi" ≠ " hi " :=
  ⟨rfl, by decide⟩
